import Mathlib

/-!
Shallow embedding of dumbrouter (src/main.rs), a Docker name-based HTTP
reverse proxy, together with proofs about its routing and forwarding
pipeline.

Modelling conventions:

* Rust `String`s that are only ever concatenated or compared are kept as
  Lean `String`s; strings that are byte-sliced (container names in
  `dest_host_for_service`) are modelled as UTF-8 byte sequences
  (`List Nat`), because Rust string indexing is byte-based and
  `str::get(..i)` fails off a character boundary.
* A Rust panic (`unwrap` on `None`) is modelled as `Option.none` at the
  function's result.
* `eprintln!` diagnostics are modelled as an explicit list of `Warning`
  values returned alongside the result.
* The container registry listing, the forwarding HTTP client and the
  random number generator are external collaborators: they enter the model
  as an input list, an oracle function, and a seed `r : Nat`.
* `CARGO_PKG_VERSION` comes from Cargo.toml, which is not part of the
  sources; the version tag is therefore a parameter `version : String`.
-/

namespace DumbRouter

/-- UTF-8 encoding of one character as its byte values. -/
def utf8Bytes (c : Char) : List Nat :=
  let n := c.toNat
  if n < 0x80 then [n]
  else if n < 0x800 then [0xC0 + n / 0x40, 0x80 + n % 0x40]
  else if n < 0x10000 then [0xE0 + n / 0x1000, 0x80 + n / 0x40 % 0x40, 0x80 + n % 0x40]
  else [0xF0 + n / 0x40000, 0x80 + n / 0x1000 % 0x40, 0x80 + n / 0x40 % 0x40, 0x80 + n % 0x40]

/-- UTF-8 bytes of a character sequence. -/
def strBytes (s : List Char) : List Nat :=
  (s.map utf8Bytes).flatten

/-- UTF-8 bytes of a string literal (convenience for statements). -/
def byteStr (s : String) : List Nat :=
  strBytes s.data

/-- Rust `str::is_char_boundary(i)` on a UTF-8 byte sequence: true at 0, at
the total length, and at any byte that is not a continuation byte. -/
def isCharBoundary (s : List Nat) (i : Nat) : Bool :=
  i == 0 ||
    match s.get? i with
    | some b => decide (b < 0x80) || decide (0xC0 ≤ b)
    | none => i == s.length

/-- Rust `str::get(..i)`: the first `i` bytes, provided `i` sits on a
character boundary (which also forces `i ≤ length`); `none` otherwise. -/
def strGet (s : List Nat) (i : Nat) : Option (List Nat) :=
  if isCharBoundary s i then some (s.take i) else none

/-- `format!("/http-{}", service)` as bytes (main.rs line 190). -/
def start_base (service : List Nat) : List Nat :=
  byteStr "/http-" ++ service

/-- `format!("/http-prod-{}", service)` as bytes (main.rs line 191). -/
def start_prod (service : List Nat) : List Nat :=
  byteStr "/http-prod-" ++ service

/-- The name/prefix test of `dest_host_for_service` (main.rs lines 193-199):

`if name.len() < start_base.len() || name.get(..start_base.len()).unwrap()
 != start_base && (name.len() < start_prod.len() ||
 name.get(..start_prod.len()).unwrap() != start_prod) { return None }`

`some true` means the container passes the test, `some false` means the
condition fired and the container is skipped, `none` means one of the two
`unwrap`s panicked. Short-circuit order matches the source. -/
def nameMatches (service name : List Nat) : Option Bool :=
  if name.length < (start_base service).length then some false
  else
    match strGet name (start_base service).length with
    | none => none
    | some pre =>
      if pre = start_base service then some true
      else if name.length < (start_prod service).length then some false
      else
        match strGet name (start_prod service).length with
        | none => none
        | some pre2 => some (decide (pre2 = start_prod service))

/-- bollard `Port`: a published-port mapping of a container. Only the
fields `dest_host_for_service` reads are kept. -/
structure Port where
  ip : Option String
  private_port : Nat
  public_port : Option Nat
deriving DecidableEq

/-- bollard `ContainerSummary`, restricted to the fields the router reads.
Names are UTF-8 byte sequences (they get byte-sliced). -/
structure ContainerSummary where
  names : Option (List (List Nat))
  ports : Option (List Port)
deriving DecidableEq

/-- One `eprintln!("WARN: ...")` diagnostic of `dest_host_for_service`,
carrying the data interpolated into the message. -/
inductive Warning where
  | noPort (name : List Nat)
  | noEligiblePort (name : List Nat) (count : Nat)
deriving DecidableEq

/-- `env::var("LOCALHOST_IP").unwrap_or("host.docker.internal")`
(main.rs line 231); `env` is the environment variable's value. -/
def localhostIp (env : Option String) : String :=
  env.getD "host.docker.internal"

/-- The eligible-port predicate `p.ip.is_some() && p.public_port.is_some()`
(main.rs line 215). -/
def portEligible (p : Port) : Bool :=
  p.ip.isSome && p.public_port.isSome

/-- The `filter_map` closure of `dest_host_for_service` (main.rs lines
177-234) for one container: `none` models a panic; otherwise the emitted
warnings together with the candidate endpoint string, `none` standing for
the closure returning `None` (container filtered out). -/
def containerStep (env : Option String) (service : List Nat) (c : ContainerSummary) :
    Option (List Warning × Option String) :=
  match c.names with
  | none => some ([], none)
  | some names =>
    if names.length ≠ 1 then some ([], none)
    else
      match names.head? with
      | none => none
      | some name =>
        match nameMatches service name with
        | none => none
        | some false => some ([], none)
        | some true =>
          match c.ports with
          | none => some ([.noPort name], none)
          | some ports =>
            if ports.length < 1 then some ([.noPort name], none)
            else
              let elig := ports.filter portEligible
              if elig.length < 1 then some ([.noEligiblePort name elig.length], none)
              else
                match elig.head? with
                | none => none
                | some port =>
                  match port.public_port with
                  | none => none
                  | some pp => some ([], some (localhostIp env ++ ":" ++ toString pp))

/-- The whole `filter_map` pass over the registry listing: warnings of all
containers in order, plus the candidate endpoints of the eligible
containers in listing order. `none` models a panic in some step. -/
def runContainers (env : Option String) (service : List Nat) :
    List ContainerSummary → Option (List Warning × List String)
  | [] => some ([], [])
  | c :: cs =>
    match containerStep env service c with
    | none => none
    | some (ws, cand) =>
      match runContainers env service cs with
      | none => none
      | some (ws', l) =>
        some (ws ++ ws', match cand with | some e => e :: l | none => l)

/-- Models rand's `IteratorRandom::choose` abstractly: with `n` candidates a
uniform random draw `r` selects index `r % n`; no candidate, no choice. -/
def chosenIndex (n r : Nat) : Option Nat :=
  if n = 0 then none else some (r % n)

/-- Uniform random choice over the candidate list, seeded by `r`. -/
def chooseUniform (l : List String) (r : Nat) : Option String :=
  (chosenIndex l.length r).bind fun i => l.get? i

/-- `dest_host_for_service` (main.rs lines 162-236) given the registry
listing `cs` and the random draw `r`: warnings plus the chosen backend
endpoint, `none` modelling a panic. -/
def dest_host_for_service (env : Option String) (service : List Nat)
    (cs : List ContainerSummary) (r : Nat) : Option (List Warning × Option String) :=
  (runContainers env service cs).map fun p => (p.1, chooseUniform p.2 r)

/-- `host.split(":").collect::<Vec<_>>()[0]` (main.rs line 86) together
with `host.split(".")` (line 87): Rust `str::split` on a one-character
pattern. Splitting the empty sequence yields one empty piece, like Rust. -/
def splitOnChar (sep : Char) : List Char → List (List Char)
  | [] => [[]]
  | c :: rest =>
    if c = sep then [] :: splitOnChar sep rest
    else
      match splitOnChar sep rest with
      | [] => [[c]]
      | r :: rs => (c :: r) :: rs

/-- Port removal (main.rs line 86): the piece before the first `:`. The
`headD` default is never taken (`splitOnChar` never returns `[]`). -/
def stripPort (host : List Char) : List Char :=
  (splitOnChar ':' host).headD []

/-- `service_from_host_parts` (main.rs lines 150-160). The `none` result
models the panic of `parts.split_at(len - 2)` when `len = 0` (usize
underflow), which the handler never reaches since splitting always yields
at least one piece. -/
def service_from_host_parts (parts : List (List Char)) : Option (List Char) :=
  let len := parts.length
  match len with
  | 1 => parts.head?
  | 2 => some "_root".data
  | _ =>
    if len < 2 then none
    else some (List.intercalate ['.'] (parts.splitAt (len - 2)).fst)

/-- Service id resolved from a `Host` header value (main.rs lines 83-88):
strip the port, split on dots, derive the service id. -/
def hostService (host : List Char) : Option (List Char) :=
  service_from_host_parts (splitOnChar '.' (stripPort host))

/-- `die` (main.rs lines 70-74): the internal-error response, a 500 with
the body `Internal Server Error (dumbrouter/{VERSION})`. -/
def die (version : String) : Nat × List Char :=
  (500, "Internal Server Error (dumbrouter/".data ++ version.data ++ ")".data)

/-- The no-backend response (main.rs lines 98-102): a 500 with the body
`No backend found for service {service}.  (dumbrouter/{VERSION})`. -/
def noBackendResponse (version : String) (service : List Char) : Nat × List Char :=
  (500, "No backend found for service ".data ++ service
          ++ ".  (dumbrouter/".data ++ version.data ++ ")".data)

/-- `unsupported_handler` (main.rs lines 238-242): the fixed 501 response
with the body `This method is not supported.  (dumbrouter/{VERSION})`. -/
def unsupported_handler (version : String) : Nat × List Char :=
  (501, "This method is not supported.  (dumbrouter/".data ++ version.data ++ ")".data)

/-- `http::HeaderMap::insert`: associates `k` with exactly `v`, removing
every previous value held under `k`. -/
def insertHeader (m : List (String × String)) (k v : String) : List (String × String) :=
  m.filter (fun p => p.fst ≠ k) ++ [(k, v)]

/-- The header-copy loop of `handler` (main.rs lines 106-114): every
inbound `(k, v)` pair is `insert`ed into a fresh map in order. -/
def copyHeaders (hs : List (String × String)) : List (String × String) :=
  hs.foldl (fun m kv => insertHeader m kv.fst kv.snd) []

/-- HTTP methods the router distinguishes. -/
inductive Method where
  | GET | POST | PUT | DELETE | HEAD | OPTIONS | CONNECT | TRACE | PATCH
deriving DecidableEq

/-- The methods routed to `handler` (main.rs lines 39-46). -/
def supported_methods : List Method :=
  [.GET, .POST, .PUT, .DELETE, .HEAD, .OPTIONS]

/-- The methods routed to `unsupported_handler` (main.rs line 48). -/
def unsupported_methods : List Method :=
  [.CONNECT, .TRACE]

/-- Where the actix route table sends a request (main.rs lines 55-61):
catch-all path, dispatch on method only, supported routes registered
first. Methods in neither list match no route. -/
inductive RouteTarget where
  | toHandler | toUnsupported
deriving DecidableEq

/-- Route-table lookup by method. -/
def route (m : Method) : Option RouteTarget :=
  if supported_methods.contains m then some .toHandler
  else if unsupported_methods.contains m then some .toUnsupported
  else none

/-- The outbound request `handler` builds (main.rs lines 116-125). -/
structure OutboundRequest where
  method : Method
  url : String
  headers : List (String × String)
  body : Option (List Nat)
deriving DecidableEq

/-- Building the outbound request: same method, copied headers, target
`http://{dest_host}/{path}`, body attached only when present. -/
def buildOutbound (method : Method) (headers : List (String × String))
    (path : String) (body : Option (List Nat)) (dest : String) : OutboundRequest :=
  { method := method
    url := "http://" ++ dest ++ "/" ++ path
    headers := copyHeaders headers
    body := body }

/-- `handler` (main.rs lines 76-148). Inputs: the version tag, the
`LOCALHOST_IP` variable, the `Host` header, the matched path, the inbound
headers and body, the method, the registry listing (`Except` for the
bollard call failing), the random draw `r`, and the forwarding oracle
`fwd` standing for `reqwest` send + response relay. `none` models a
panic (unreachable from well-formed inputs). -/
def handler (version : String) (env : Option String) (host : List Char)
    (path : String) (headers : List (String × String)) (body : Option (List Nat))
    (method : Method) (registry : Except Unit (List ContainerSummary)) (r : Nat)
    (fwd : OutboundRequest → Except Unit (Nat × List Char)) : Option (Nat × List Char) :=
  match hostService host with
  | none => none
  | some service =>
    match registry with
    | .error _ => some (die version)
    | .ok cs =>
      match runContainers env (strBytes service) cs with
      | none => none
      | some (_ws, cands) =>
        match chooseUniform cands r with
        | none => some (noBackendResponse version service)
        | some dest =>
          match fwd (buildOutbound method headers path body dest) with
          | .error _ => some (die version)
          | .ok res => some res

/-- Per-request dispatch: route on the method, then run the matched
handler (main.rs lines 55-61). -/
def dispatch (version : String) (env : Option String) (m : Method) (host : List Char)
    (path : String) (headers : List (String × String)) (body : Option (List Nat))
    (registry : Except Unit (List ContainerSummary)) (r : Nat)
    (fwd : OutboundRequest → Except Unit (Nat × List Char)) : Option (Nat × List Char) :=
  match route m with
  | none => none
  | some .toUnsupported => some (unsupported_handler version)
  | some .toHandler => handler version env host path headers body m registry r fwd

/-! ## Helper lemmas -/

theorem strGet_eq_some {s : List Nat} {i : Nat} {pre : List Nat}
    (h : strGet s i = some pre) : pre = s.take i := by
  unfold strGet at h
  split at h
  · exact (Option.some.inj h).symm
  · exact absurd h (by simp)

theorem nameMatches_true_elim {service name : List Nat}
    (h : nameMatches service name = some true) :
    (∃ t, start_base service ++ t = name) ∨ (∃ t, start_prod service ++ t = name) := by
  unfold nameMatches at h
  split at h
  · exact absurd h (by simp)
  · split at h
    · exact absurd h (by simp)
    · rename_i pre hg
      split at h
      · rename_i hb
        left
        have htake : name.take (start_base service).length = start_base service := by
          rw [← strGet_eq_some hg, hb]
        have hsplit := List.take_append_drop (start_base service).length name
        rw [htake] at hsplit
        exact ⟨name.drop (start_base service).length, hsplit⟩
      · split at h
        · exact absurd h (by simp)
        · split at h
          · exact absurd h (by simp)
          · rename_i pre2 hg2
            have hb2 : pre2 = start_prod service :=
              of_decide_eq_true (Option.some.inj h)
            right
            have htake : name.take (start_prod service).length = start_prod service := by
              rw [← strGet_eq_some hg2, hb2]
            have hsplit := List.take_append_drop (start_prod service).length name
            rw [htake] at hsplit
            exact ⟨name.drop (start_prod service).length, hsplit⟩

theorem containerStep_candidate_inv {env : Option String} {service : List Nat}
    {c : ContainerSummary} {ws : List Warning} {e : String}
    (h : containerStep env service c = some (ws, some e)) :
    ∃ name, c.names = some [name] ∧ nameMatches service name = some true := by
  unfold containerStep at h
  split at h
  · exact absurd h (by simp)
  · rename_i names hnames
    split at h
    · exact absurd h (by simp)
    · rename_i hlen
      have hlen1 : names.length = 1 := by omega
      obtain ⟨name, hname⟩ := List.length_eq_one.mp hlen1
      rw [hname] at h
      simp only [List.head?_cons] at h
      refine ⟨name, by rw [hnames, hname], ?_⟩
      cases hm : nameMatches service name with
      | none => rw [hm] at h; exact absurd h (by simp)
      | some b =>
        cases b with
        | false => rw [hm] at h; exact absurd h (by simp)
        | true =>
          rfl

theorem containerStep_names_none {env : Option String} {service : List Nat}
    {c : ContainerSummary} (h : c.names = none) :
    containerStep env service c = some ([], none) := by
  unfold containerStep
  rw [h]

theorem containerStep_names_card {env : Option String} {service : List Nat}
    {c : ContainerSummary} {ns : List (List Nat)} (h : c.names = some ns)
    (hlen : ns.length ≠ 1) : containerStep env service c = some ([], none) := by
  unfold containerStep
  rw [h]
  simp [hlen]

/-- C1: a workload is eligible for selection only if it reports exactly one
name (a missing names field, zero names, or several names exclude it
regardless of content) and that single name starts with the byte prefix
`"/http-" ++ serviceId` or `"/http-prod-" ++ serviceId`, exact and
case-sensitive with no boundary check after the service id; concretely,
`/http-foo` and `/http-prod-foo` pass for service `foo` and `/httpfoo`
does not. -/
theorem claim_c1 (env : Option String) (service : List Nat) :
    (∀ c : ContainerSummary, c.names = none → containerStep env service c = some ([], none))
    ∧ (∀ c : ContainerSummary, ∀ ns, c.names = some ns → ns.length ≠ 1 →
        containerStep env service c = some ([], none))
    ∧ (∀ c : ContainerSummary, ∀ ws e, containerStep env service c = some (ws, some e) →
        ∃ name, c.names = some [name] ∧
          ((∃ t, start_base service ++ t = name) ∨ (∃ t, start_prod service ++ t = name)))
    ∧ nameMatches (byteStr "foo") (byteStr "/http-foo") = some true
    ∧ nameMatches (byteStr "foo") (byteStr "/http-prod-foo") = some true
    ∧ nameMatches (byteStr "foo") (byteStr "/httpfoo") = some false := by
  refine ⟨fun c hc => containerStep_names_none hc,
    fun c ns hc hlen => containerStep_names_card hc hlen,
    fun c ws e h => ?_, by decide, by decide, by decide⟩
  obtain ⟨name, h1, h2⟩ := containerStep_candidate_inv h
  exact ⟨name, h1, nameMatches_true_elim h2⟩

/-- Closed instance for C1: the container named `/http-foo` with one bound
port is selected for service `foo`, and the theorem recovers its name and
prefix decomposition. -/
theorem claim_c1_witness :
    ∃ name,
      (ContainerSummary.mk (some [byteStr "/http-foo"])
        (some [Port.mk (some "1.2.3.4") 80 (some 49200)])).names = some [name] ∧
      ((∃ t, start_base (byteStr "foo") ++ t = name) ∨
        (∃ t, start_prod (byteStr "foo") ++ t = name)) :=
  (claim_c1 none (byteStr "foo")).2.2.1
    (ContainerSummary.mk (some [byteStr "/http-foo"])
      (some [Port.mk (some "1.2.3.4") 80 (some 49200)]))
    [] "host.docker.internal:49200" (by decide)

/-- C10: the byte-slice `unwrap`s of the prefix check cannot panic when each
candidate prefix's byte length either exceeds the name's byte length or
falls on a UTF-8 character boundary of the name (ASCII names satisfy this
for every index). -/
theorem claim_c10 (service name : List Nat)
    (hbase : name.length < (start_base service).length ∨
      isCharBoundary name (start_base service).length = true)
    (hprod : name.length < (start_prod service).length ∨
      isCharBoundary name (start_prod service).length = true) :
    (nameMatches service name).isSome = true := by
  by_cases hA : name.length < (start_base service).length
  · simp [nameMatches, hA]
  · have hb := hbase.resolve_left hA
    by_cases hpre : name.take (start_base service).length = start_base service
    · simp [nameMatches, hA, strGet, hb, hpre]
    · by_cases hC : name.length < (start_prod service).length
      · simp [nameMatches, hA, strGet, hb, hpre, hC]
      · have hb2 := hprod.resolve_left hC
        simp [nameMatches, hA, strGet, hb, hb2, hpre, hC]

/-- Closed instance for C10: the check is total on the ASCII name
`/http-foo-x` for service `foo`. -/
theorem claim_c10_witness :
    ((byteStr "/http-foo-x").length < (start_base (byteStr "foo")).length ∨
      isCharBoundary (byteStr "/http-foo-x") (start_base (byteStr "foo")).length = true)
    ∧ ((byteStr "/http-foo-x").length < (start_prod (byteStr "foo")).length ∨
      isCharBoundary (byteStr "/http-foo-x") (start_prod (byteStr "foo")).length = true)
    ∧ (nameMatches (byteStr "foo") (byteStr "/http-foo-x")).isSome = true :=
  ⟨by decide, by decide,
    claim_c10 (byteStr "foo") (byteStr "/http-foo-x") (by decide) (by decide)⟩

/-! ## Service name resolution -/

theorem sfhp_one (p : List Char) : service_from_host_parts [p] = some p := rfl

theorem sfhp_two (p q : List Char) :
    service_from_host_parts [p, q] = some "_root".data := rfl

theorem sfhp_big (a b c : List Char) (t : List (List Char)) :
    service_from_host_parts (a :: b :: c :: t) =
      some (List.intercalate ['.']
        ((a :: b :: c :: t).take ((a :: b :: c :: t).length - 2))) := by
  show (if (a :: b :: c :: t).length < 2 then none
    else some (List.intercalate ['.']
      (((a :: b :: c :: t).splitAt ((a :: b :: c :: t).length - 2)).fst))) = _
  rw [if_neg (by simp), List.splitAt_eq]

/-- C2: on the label list of a hostname (never empty), the resolver is total
and yields the single label for 1 label, the sentinel `_root` for 2 labels,
and the first `N - 2` labels joined by `.` for `N ≥ 3` labels; the empty
hostname splits into one empty label and resolves like the 1-label case. -/
theorem claim_c2 :
    (∀ parts : List (List Char), parts ≠ [] → (service_from_host_parts parts).isSome = true)
    ∧ (∀ p : List Char, service_from_host_parts [p] = some p)
    ∧ (∀ p q : List Char, service_from_host_parts [p, q] = some "_root".data)
    ∧ (∀ parts : List (List Char), 3 ≤ parts.length →
        service_from_host_parts parts =
          some (List.intercalate ['.'] (parts.take (parts.length - 2))))
    ∧ splitOnChar '.' ([] : List Char) = [[]]
    ∧ service_from_host_parts (splitOnChar '.' ([] : List Char)) = some [] := by
  have hbig : ∀ parts : List (List Char), 3 ≤ parts.length →
      service_from_host_parts parts =
        some (List.intercalate ['.'] (parts.take (parts.length - 2))) := by
    intro parts h3
    match parts with
    | [] => exact absurd h3 (by simp)
    | [a] => exact absurd h3 (by simp)
    | [a, b] => exact absurd h3 (by simp)
    | a :: b :: c :: t => exact sfhp_big a b c t
  refine ⟨?_, sfhp_one, sfhp_two, hbig, rfl, rfl⟩
  intro parts hne
  match parts with
  | [p] => rfl
  | [p, q] => rfl
  | a :: b :: c :: t => rw [sfhp_big a b c t]; rfl

/-- Closed instance for C2: four labels resolve to the first two joined. -/
theorem claim_c2_witness :
    3 ≤ ([['a'], ['b'], ['c'], ['d']] : List (List Char)).length
    ∧ service_from_host_parts [['a'], ['b'], ['c'], ['d']] =
        some (List.intercalate ['.']
          (([['a'], ['b'], ['c'], ['d']] : List (List Char)).take
            (([['a'], ['b'], ['c'], ['d']] : List (List Char)).length - 2))) :=
  ⟨by decide, claim_c2.2.2.2.1 [['a'], ['b'], ['c'], ['d']] (by decide)⟩

theorem splitOnChar_ne_nil (sep : Char) (l : List Char) : splitOnChar sep l ≠ [] := by
  induction l with
  | nil => simp [splitOnChar]
  | cons c t ih =>
    unfold splitOnChar
    by_cases h : c = sep
    · simp [h]
    · rw [if_neg h]
      cases hs : splitOnChar sep t with
      | nil => simp
      | cons r rs => simp

theorem splitOnChar_head (sep : Char) (l : List Char) :
    (splitOnChar sep l).headD [] = l.takeWhile (fun c => !(c == sep)) := by
  induction l with
  | nil => rfl
  | cons c t ih =>
    unfold splitOnChar
    by_cases h : c = sep
    · rw [if_pos h]
      simp [List.takeWhile_cons, h]
    · rw [if_neg h]
      cases hs : splitOnChar sep t with
      | nil => exact absurd hs (splitOnChar_ne_nil sep t)
      | cons r rs =>
        rw [hs] at ih
        have hr : r = t.takeWhile (fun c => !(c == sep)) := by simpa using ih
        simp [List.takeWhile_cons, h, hr]

theorem takeWhile_colon_append (l₁ l₂ : List Char) :
    (l₁ ++ ':' :: l₂).takeWhile (fun c => !(c == ':')) =
      l₁.takeWhile (fun c => !(c == ':')) := by
  induction l₁ with
  | nil => simp [List.takeWhile_cons]
  | cons c t ih =>
    by_cases hc : c = ':'
    · simp [List.takeWhile_cons, hc]
    · simp [List.takeWhile_cons, hc, ih]

/-- C9: routing is port-agnostic — the port suffix is stripped before
resolution (`stripPort` keeps exactly the characters before the first `:`),
so a host of the shape `h:p` resolves to the same service id as `h`. -/
theorem claim_c9 :
    (∀ host : List Char, stripPort host = host.takeWhile (fun c => !(c == ':')))
    ∧ (∀ h p : List Char, hostService (h ++ ':' :: p) = hostService h) := by
  have hsp : ∀ host : List Char, stripPort host = host.takeWhile (fun c => !(c == ':')) :=
    fun host => splitOnChar_head ':' host
  refine ⟨hsp, fun h p => ?_⟩
  unfold hostService stripPort
  rw [splitOnChar_head ':' (h ++ ':' :: p), splitOnChar_head ':' h, takeWhile_colon_append]

/-! ## Header copying and the outbound request -/

theorem foldl_insertHeader (hs : List (String × String))
    (hpw : hs.Pairwise (fun a b => a.1 ≠ b.1)) :
    ∀ acc : List (String × String),
      (∀ kv ∈ hs, ∀ kv' ∈ acc, kv'.1 ≠ kv.1) →
      hs.foldl (fun m kv => insertHeader m kv.fst kv.snd) acc = acc ++ hs := by
  induction hs with
  | nil => intro acc _; simp
  | cons kv t ih =>
    intro acc hdisj
    rw [List.foldl_cons]
    have hins : insertHeader acc kv.fst kv.snd = acc ++ [kv] := by
      unfold insertHeader
      have hfil : acc.filter (fun p => p.fst ≠ kv.fst) = acc := by
        apply List.filter_eq_self.mpr
        intro a ha
        exact decide_eq_true (hdisj kv (List.mem_cons_self kv t) a ha)
      rw [hfil]
    rw [hins]
    have htail := ih (List.Pairwise.sublist (List.sublist_cons_self kv t) hpw)
      (acc ++ [kv]) ?_
    · rw [htail, List.append_assoc]
      rfl
    · intro kv1 h1 kv2 h2
      rcases List.mem_append.mp h2 with h2a | h2b
      · exact hdisj kv1 (List.mem_cons_of_mem kv h1) kv2 h2a
      · have : kv2 = kv := by simpa using h2b
        rw [this]
        exact (List.pairwise_cons.mp hpw).1 kv1 h1

theorem copyHeaders_of_nodup_keys (hs : List (String × String))
    (hpw : hs.Pairwise (fun a b => a.1 ≠ b.1)) : copyHeaders hs = hs := by
  unfold copyHeaders
  have := foldl_insertHeader hs hpw [] (by simp)
  simpa using this

/-- C5 counterexample: two inbound headers sharing a key are collapsed by
the copy loop (`HeaderMap::insert` replaces), so the outbound request does
not carry all inbound headers unmodified. -/
theorem claim_c5_counterexample :
    (buildOutbound .GET [("x-dup", "1"), ("x-dup", "2")] "p" none "h:1").headers
      = [("x-dup", "2")]
    ∧ (buildOutbound .GET [("x-dup", "1"), ("x-dup", "2")] "p" none "h:1").headers
      ≠ [("x-dup", "1"), ("x-dup", "2")] := by
  decide

/-- C5 (amended): the outbound request reuses the inbound method, targets
`http://{endpoint}/{path}` with no rewriting, attaches the body verbatim
when present and sends none when absent, and carries the inbound headers
copied through key-replacing insertion — so whenever the inbound header
keys are pairwise distinct the headers are passed through unmodified. -/
theorem claim_c5_amended (method : Method) (headers : List (String × String))
    (path : String) (body : Option (List Nat)) (dest : String) :
    (buildOutbound method headers path body dest).method = method
    ∧ (buildOutbound method headers path body dest).url = "http://" ++ dest ++ "/" ++ path
    ∧ (buildOutbound method headers path body dest).body = body
    ∧ (buildOutbound method headers path body dest).headers = copyHeaders headers
    ∧ (headers.Pairwise (fun a b => a.1 ≠ b.1) →
        (buildOutbound method headers path body dest).headers = headers) :=
  ⟨rfl, rfl, rfl, rfl, fun hpw => copyHeaders_of_nodup_keys headers hpw⟩

/-- Closed instance for C5: distinct-key headers survive the copy as-is. -/
theorem claim_c5_witness :
    ([("host", "a"), ("accept", "b")] : List (String × String)).Pairwise
      (fun a b => a.1 ≠ b.1)
    ∧ (buildOutbound .GET [("host", "a"), ("accept", "b")] "p" none "h:1").headers
      = [("host", "a"), ("accept", "b")] :=
  ⟨by decide,
    (claim_c5_amended .GET [("host", "a"), ("accept", "b")] "p" none "h:1").2.2.2.2
      (by decide)⟩

/-! ## Dispatcher outcomes -/

/-- C4 counterexample: when no workload survives filtering the handler
answers with the no-backend response, and that response carries status 500 —
a 5xx status, identical to the internal-error status — so it is not
"non-5xx-flavored". -/
theorem claim_c4_counterexample :
    handler "0.1.0" none "foo.example.com".data "p" [] none .GET (.ok []) 0
        (fun _ => .error ())
      = some (noBackendResponse "0.1.0" "foo".data)
    ∧ (noBackendResponse "0.1.0" "foo".data).fst = 500
    ∧ (noBackendResponse "0.1.0" "foo".data).fst / 100 = 5
    ∧ (noBackendResponse "0.1.0" "foo".data).fst = (die "0.1.0").fst := by
  refine ⟨by decide, rfl, rfl, rfl⟩

/-- C4 (amended): when selection yields no backend, the handler responds with
the fixed no-backend response: a failing status 500 — the same 5xx status
code as the internal error — whose plain-text body names the unresolved
service id and carries the version tag, and whose body always differs from
the internal-error body, so callers can tell the two outcomes apart by the
body, not by the status. -/
theorem claim_c4_amended (version : String) (env : Option String) (host : List Char)
    (path : String) (headers : List (String × String)) (body : Option (List Nat))
    (method : Method) (cs : List ContainerSummary) (r : Nat)
    (fwd : OutboundRequest → Except Unit (Nat × List Char)) (service : List Char)
    (ws : List Warning)
    (hres : hostService host = some service)
    (hrun : runContainers env (strBytes service) cs = some (ws, [])) :
    handler version env host path headers body method (.ok cs) r fwd
      = some (noBackendResponse version service)
    ∧ (noBackendResponse version service).fst = 500
    ∧ (noBackendResponse version service).snd =
        "No backend found for service ".data ++ service
          ++ ".  (dumbrouter/".data ++ version.data ++ ")".data
    ∧ (noBackendResponse version service).snd ≠ (die version).snd := by
  refine ⟨?_, rfl, rfl, ?_⟩
  · unfold handler
    rw [hres]
    simp only [hrun, chooseUniform, chosenIndex, List.length_nil, if_pos,
      Option.none_bind]
  · intro hEq
    have hN : (noBackendResponse version service).snd.head? = some 'N' := rfl
    have hI : (die version).snd.head? = some 'I' := rfl
    rw [hEq, hI] at hN
    exact absurd (Option.some.inj hN) (by decide)

/-- Closed instance for C4 (amended): an empty registry listing for
`foo.example.com` produces the no-backend response naming `foo`. -/
theorem claim_c4_witness :
    hostService "foo.example.com".data = some "foo".data
    ∧ runContainers none (strBytes "foo".data) [] = some ([], [])
    ∧ handler "0.1.0" none "foo.example.com".data "p" [] none .GET (.ok []) 7
        (fun _ => .error ())
      = some (noBackendResponse "0.1.0" "foo".data) :=
  ⟨by decide, rfl,
    (claim_c4_amended "0.1.0" none "foo.example.com".data "p" [] none .GET [] 7
      (fun _ => .error ()) "foo".data [] (by decide) rfl).1⟩

/-- C8: CONNECT and TRACE requests match the unsupported route and always
receive the fixed 501 plain-text response with the version tag, whatever the
host, path, headers, body, registry state, random draw, or forwarding
oracle — none of the routing pipeline is consulted. -/
theorem claim_c8 (version : String) (env : Option String) (host : List Char)
    (path : String) (headers : List (String × String)) (body : Option (List Nat))
    (registry : Except Unit (List ContainerSummary)) (r : Nat)
    (fwd : OutboundRequest → Except Unit (Nat × List Char)) :
    dispatch version env .CONNECT host path headers body registry r fwd
        = some (unsupported_handler version)
    ∧ dispatch version env .TRACE host path headers body registry r fwd
        = some (unsupported_handler version)
    ∧ route .CONNECT = some .toUnsupported
    ∧ route .TRACE = some .toUnsupported
    ∧ (unsupported_handler version).fst = 501
    ∧ (unsupported_handler version).snd =
        "This method is not supported.  (dumbrouter/".data ++ version.data ++ ")".data :=
  ⟨rfl, rfl, rfl, rfl, rfl, rfl⟩

/-! ## Backend candidate construction and selection -/

/-- C3: the candidate endpoint of an eligible workload is
`{host}:{port}` where the port is the public port of the first eligible
published port in listing order (one having both a host IP and a public
port) and the host is the `LOCALHOST_IP` value when the variable is set,
else the fixed alias `host.docker.internal` — never the port mapping's own
IP. -/
theorem claim_c3 (env : Option String) (service : List Nat) (c : ContainerSummary)
    (name : List Nat) (ps : List Port) (p0 : Port) (pp : Nat)
    (hn : c.names = some [name])
    (hm : nameMatches service name = some true)
    (hp : c.ports = some ps)
    (hhead : (ps.filter portEligible).head? = some p0)
    (hpp : p0.public_port = some pp) :
    containerStep env service c = some ([], some (localhostIp env ++ ":" ++ toString pp))
    ∧ localhostIp none = "host.docker.internal"
    ∧ (∀ ip, localhostIp (some ip) = ip) := by
  refine ⟨?_, rfl, fun ip => rfl⟩
  have hpslen : ¬ps.length < 1 := by
    cases ps with
    | nil => simp [List.filter] at hhead
    | cons a t => simp
  have heliglen : ¬(ps.filter portEligible).length < 1 := by
    cases hE : ps.filter portEligible with
    | nil => rw [hE] at hhead; simp at hhead
    | cons a t => simp
  unfold containerStep
  rw [hn]
  simp only [List.length_cons, List.length_nil, Nat.zero_add, ne_eq, if_neg,
    List.head?_cons, hm, hp, if_neg hpslen, if_neg heliglen, hhead, hpp]
  simp

/-- Closed instance for C3: the second port mapping is the first eligible
one, its IP is ignored, and `LOCALHOST_IP = 127.0.0.1` supplies the host. -/
theorem claim_c3_witness :
    containerStep (some "127.0.0.1") (byteStr "foo")
        (ContainerSummary.mk (some [byteStr "/http-foo"])
          (some [Port.mk none 80 (some 49200),
                 Port.mk (some "10.0.0.9") 80 (some 49201)]))
      = some ([], some ("127.0.0.1" ++ ":" ++ toString 49201)) :=
  (claim_c3 (some "127.0.0.1") (byteStr "foo")
    (ContainerSummary.mk (some [byteStr "/http-foo"])
      (some [Port.mk none 80 (some 49200), Port.mk (some "10.0.0.9") 80 (some 49201)]))
    (byteStr "/http-foo")
    [Port.mk none 80 (some 49200), Port.mk (some "10.0.0.9") 80 (some 49201)]
    (Port.mk (some "10.0.0.9") 80 (some 49201)) 49201
    rfl (by decide) rfl (by decide) rfl).1

/-- C6: a workload that passes the name checks but publishes no ports, or
only ports without a host binding, is excluded with a warning diagnostic
naming it, the step never panics, and evaluation continues over the
remaining workloads. -/
theorem claim_c6 (env : Option String) (service : List Nat) (c : ContainerSummary)
    (name : List Nat) (rest : List ContainerSummary)
    (hn : c.names = some [name]) (hm : nameMatches service name = some true) :
    (c.ports = none → containerStep env service c = some ([Warning.noPort name], none))
    ∧ (c.ports = some [] → containerStep env service c = some ([Warning.noPort name], none))
    ∧ (∀ ps, c.ports = some ps → 1 ≤ ps.length → ps.filter portEligible = [] →
        containerStep env service c = some ([Warning.noEligiblePort name 0], none))
    ∧ (∀ ws, containerStep env service c = some (ws, none) →
        runContainers env service (c :: rest) =
          (runContainers env service rest).map (fun q => (ws ++ q.1, q.2))) := by
  refine ⟨?_, ?_, ?_, ?_⟩
  · intro hp
    unfold containerStep
    rw [hn]
    simp only [List.length_cons, List.length_nil, Nat.zero_add, ne_eq, if_neg,
      List.head?_cons, hm, hp]
    simp
  · intro hp
    unfold containerStep
    rw [hn]
    simp only [List.length_cons, List.length_nil, Nat.zero_add, ne_eq, if_neg,
      List.head?_cons, hm, hp]
    simp
  · intro ps hp hlen hfil
    unfold containerStep
    rw [hn]
    simp only [List.length_cons, List.length_nil, Nat.zero_add, ne_eq, if_neg,
      List.head?_cons, hm, hp, if_neg (by omega : ¬ps.length < 1), hfil]
    simp
  · intro ws h
    show (match containerStep env service c with
      | none => none
      | some (ws', cand) =>
        match runContainers env service rest with
        | none => none
        | some (ws'', l) =>
          some (ws' ++ ws'', match cand with | some e => e :: l | none => l)) = _
    rw [h]
    cases hr : runContainers env service rest with
    | none => rfl
    | some q => rfl

/-- Closed instance for C6: a matching container with no ports is excluded
with a warning naming it, and the scan over the remaining (empty) listing
still runs. -/
theorem claim_c6_witness :
    containerStep none (byteStr "foo")
        (ContainerSummary.mk (some [byteStr "/http-foo"]) none)
      = some ([Warning.noPort (byteStr "/http-foo")], none)
    ∧ runContainers none (byteStr "foo")
        [ContainerSummary.mk (some [byteStr "/http-foo"]) none]
      = (runContainers none (byteStr "foo") []).map
          (fun q => ([Warning.noPort (byteStr "/http-foo")] ++ q.1, q.2)) :=
  ⟨(claim_c6 none (byteStr "foo")
      (ContainerSummary.mk (some [byteStr "/http-foo"]) none)
      (byteStr "/http-foo") [] rfl (by decide)).1 rfl,
   (claim_c6 none (byteStr "foo")
      (ContainerSummary.mk (some [byteStr "/http-foo"]) none)
      (byteStr "/http-foo") [] rfl (by decide)).2.2.2
     [Warning.noPort (byteStr "/http-foo")]
     ((claim_c6 none (byteStr "foo")
        (ContainerSummary.mk (some [byteStr "/http-foo"]) none)
        (byteStr "/http-foo") [] rfl (by decide)).1 rfl)⟩

/-- C7: with exactly one candidate, selection is deterministic — that
candidate is returned for every random draw; with `n` candidates, each
position is drawn for exactly one draw value per period of `n`, i.e. the
choice is uniform over the candidate sequence with no weighting. -/
theorem claim_c7 :
    (∀ env service cs r ws e, runContainers env service cs = some (ws, [e]) →
        dest_host_for_service env service cs r = some (ws, some e))
    ∧ (∀ n i : Nat, 0 < n → i < n →
        ((List.range n).filter (fun r => chosenIndex n r = some i)).length = 1) := by
  constructor
  · intro env service cs r ws e hrun
    unfold dest_host_for_service
    rw [hrun]
    simp [chooseUniform, chosenIndex, Nat.mod_one]
  · intro n i hn hi
    have hcongr : ∀ a ∈ List.range n,
        (decide (chosenIndex n a = some i)) = (a == i) := by
      intro a ha
      have ha' : a < n := List.mem_range.mp ha
      simp only [chosenIndex, if_neg (by omega : ¬n = 0), Nat.mod_eq_of_lt ha',
        Option.some.injEq]
      by_cases h : a = i <;> simp [h]
    rw [List.filter_congr hcongr, ← List.countP_eq_length_filter]
    show List.count i (List.range n) = 1
    exact List.count_eq_one_of_mem (List.nodup_range n) (List.mem_range.mpr hi)

/-- Closed instance for C7: one candidate container is always selected, and
with three candidates index 1 is drawn once per period. -/
theorem claim_c7_witness :
    runContainers none (byteStr "foo")
        [ContainerSummary.mk (some [byteStr "/http-foo"])
          (some [Port.mk (some "1.2.3.4") 80 (some 49200)])]
      = some ([], ["host.docker.internal:49200"])
    ∧ dest_host_for_service none (byteStr "foo")
        [ContainerSummary.mk (some [byteStr "/http-foo"])
          (some [Port.mk (some "1.2.3.4") 80 (some 49200)])] 5
      = some ([], some "host.docker.internal:49200")
    ∧ ((List.range 3).filter (fun r => chosenIndex 3 r = some 1)).length = 1 :=
  ⟨by decide,
    claim_c7.1 none (byteStr "foo") _ 5 [] "host.docker.internal:49200" (by decide),
    claim_c7.2 3 1 (by decide) (by decide)⟩

end DumbRouter
